import Mathlib

/-!
Verification of the time-integration core of `src/code_1D/TimeScheme.cpp`
(1D Saint-Venant finite-volume solver).

The state `_Sol` is an N x 2 matrix of reals (height, discharge per cell);
we embed it as `Mat n := Fin n → Fin 2 → ℚ` (exact rational arithmetic in
place of `double`).  The flux collaborator (`FiniteVolume::buildFluxVector`)
and the source collaborator (`Physics::buildSourceTerm`) are abstract
functions; the scheme steps record each collaborator invocation in a trace
so that evaluation counts and evaluation order are part of the embedding.
File output (snapshot files, probe files, topography dump) is not modelled;
for the probe files we record the iteration counters at which
`saveProbes()` runs, which appends exactly one record per probe.
-/

/-- The solution array: `n` cells, 2 conserved quantities
(column 0 = height `h`, column 1 = discharge `q`).  Embeds
`Eigen::Matrix<double, Eigen::Dynamic, 2>` with a fixed row count. -/
abbrev Mat (n : ℕ) := Fin n → Fin 2 → ℚ

/-- One collaborator invocation made by a scheme step:
`FiniteVolume::buildFluxVector(t, s)` or `Physics::buildSourceTerm(s)`. -/
inductive ProviderCall (n : ℕ) where
  | fluxCall (t : ℚ) (s : Mat n)
  | sourceCall (s : Mat n)

/-- Whether a recorded invocation is a flux-provider invocation. -/
def ProviderCall.isFlux {n : ℕ} : ProviderCall n → Bool
  | .fluxCall _ _ => true
  | .sourceCall _ => false

/-- Whether a recorded invocation is a source-provider invocation. -/
def ProviderCall.isSource {n : ℕ} : ProviderCall n → Bool
  | .fluxCall _ _ => false
  | .sourceCall _ => true

/-- `ExplicitEuler::oneStep` (TimeScheme.cpp lines 251-266): build the flux
vector at `(t, s)`, build the source term at `s`, then update
`_Sol += dt * (fluxVector / dx + source)`.  Returns the updated state
together with the trace of collaborator invocations in program order. -/
def eulerOneStep {n : ℕ} (dt dx : ℚ) (flux : ℚ → Mat n → Mat n)
    (source : Mat n → Mat n) (t : ℚ) (s : Mat n) : Mat n × List (ProviderCall n) :=
  let fluxVector := flux t s
  let sourceTerm := source s
  (fun i j => s i j + dt * (fluxVector i j / dx + sourceTerm i j),
   [ProviderCall.fluxCall t s, ProviderCall.sourceCall s])

/-- `RK2::oneStep` (TimeScheme.cpp lines 301-325): stage 1 builds flux at
`(t, s)` then source at `s` giving `k1 = flux/dx + source`; stage 2 builds
the source at the trial state `s + dt*k1` and then the flux at
`(t+dt, s + dt*k1)` giving `k2`; finally `_Sol += 0.5 * dt * (k1 + k2)`.
Returns the updated state and the invocation trace in program order. -/
def rk2OneStep {n : ℕ} (dt dx : ℚ) (flux : ℚ → Mat n → Mat n)
    (source : Mat n → Mat n) (t : ℚ) (s : Mat n) : Mat n × List (ProviderCall n) :=
  let fluxVector1 := flux t s
  let source1 := source s
  let k1 : Mat n := fun i j => fluxVector1 i j / dx + source1 i j
  let trial : Mat n := fun i j => s i j + dt * k1 i j
  let source2 := source trial
  let fluxVector2 := flux (t + dt) trial
  let k2 : Mat n := fun i j => fluxVector2 i j / dx + source2 i j
  (fun i j => s i j + 0.5 * dt * (k1 i j + k2 i j),
   [ProviderCall.fluxCall t s, ProviderCall.sourceCall s,
    ProviderCall.sourceCall trial, ProviderCall.fluxCall (t + dt) trial])

/-- `k` successive scheme steps, the clock advancing by `dt` after each step
as in `TimeScheme::solve` (the step at iteration `i` sees time `t + i*dt`). -/
def iterScheme {n : ℕ} (stepF : ℚ → Mat n → Mat n) (dt : ℚ) :
    ℕ → ℚ → Mat n → Mat n
  | 0, _, s => s
  | k + 1, t, s => iterScheme stepF dt k (t + dt) (stepF t s)

/-- The divisor of the probe-sampling test in `TimeScheme::solve` line 165:
`n % (_DF->getSaveFrequency()/10)` uses the integer quotient of the save
frequency by ten. -/
def probeDivisor (saveFrequency : ℕ) : ℕ := saveFrequency / 10

/-- The time loop of `TimeScheme::solve` (TimeScheme.cpp lines 153-169):
while `t < finalTime`, perform one scheme step, increment the iteration
counter, advance the clock by `dt`, and, if probes are configured and the
counter is a multiple of `saveFrequency/10` (integer division), run
`saveProbes()` — recorded here by appending the counter to `log`.
The C++ `while` loop is embedded with an explicit fuel bound: `none` means
the fuel was exhausted before the loop condition failed.  Snapshot-file
output is I/O and is not modelled. -/
def timeLoop {n : ℕ} (stepF : ℚ → Mat n → Mat n) (dt finalTime : ℚ)
    (saveFrequency nProbes : ℕ) :
    ℕ → ℚ → Mat n → ℕ → List ℕ → Option (ℚ × Mat n × ℕ × List ℕ)
  | 0, t, s, m, log =>
    if t < finalTime then none else some (t, s, m, log)
  | fuel + 1, t, s, m, log =>
    if t < finalTime then
      timeLoop stepF dt finalTime saveFrequency nProbes fuel
        (t + dt) (stepF t s) (m + 1)
        (if nProbes ≠ 0 ∧ (m + 1) % probeDivisor saveFrequency = 0
         then log ++ [m + 1] else log)
    else some (t, s, m, log)

/-- The iteration counters in `(m, m+K]` at which the probe-sampling branch
of the time loop fires, in increasing order. -/
def probeRecordIters (nProbes saveFrequency : ℕ) : ℕ → ℕ → List ℕ
  | _, 0 => []
  | m, K + 1 =>
    (if nProbes ≠ 0 ∧ (m + 1) % probeDivisor saveFrequency = 0
     then [m + 1] else []) ++ probeRecordIters nProbes saveFrequency (m + 1) K

/-- `TimeScheme::computeL1Error` (TimeScheme.cpp lines 205-216): the sum of
absolute per-component differences against the exact solution over all
cells, scaled by the configured spacing `_DF->getDx()`; component `j` of
the returned `Eigen::Vector2d`. -/
def computeL1Error {n : ℕ} (sol exact : Mat n) (dx : ℚ) : Fin 2 → ℚ :=
  fun j => (∑ i, |sol i j - exact i j|) * dx

/-- `TimeScheme::computeL2Error` (TimeScheme.cpp lines 194-202): the
Euclidean norm (`Eigen` `.norm()`, the square root of the sum of squares)
of the per-component difference against the exact solution, scaled by
`_DF->getDx()`; component `j` of the returned `Eigen::Vector2d`. -/
noncomputable def computeL2Error {n : ℕ} (sol exact : Mat n) (dx : ℚ) : Fin 2 → ℝ :=
  fun j => Real.sqrt (∑ i, ((sol i j : ℝ) - (exact i j : ℝ)) ^ 2) * (dx : ℝ)

/-- The inner scan of `TimeScheme::buildProbesCellIndices`
(TimeScheme.cpp lines 60-71): walk the remaining cell centers, `k` being
the index of the head of `rest`; keep `(index, distMin)` and update both
only on a strictly smaller distance `|pos - x| < distMin`. -/
def probeScan (pos : ℚ) : ℕ → ℕ → ℚ → List ℚ → ℕ × ℚ
  | _, index, distMin, [] => (index, distMin)
  | k, index, distMin, x :: rest =>
    if |pos - x| < distMin then probeScan pos (k + 1) k |pos - x| rest
    else probeScan pos (k + 1) index distMin rest

/-- `TimeScheme::buildProbesCellIndices` for a single probe position
(TimeScheme.cpp lines 57-73): `index` starts at `0`, `distMin` starts at
the distance to cell center `0`, and the loop scans all centers from
`k = 0`. -/
def probeCellIndex (cellCenters : List ℚ) (pos : ℚ) : ℕ :=
  (probeScan pos 0 0 |pos - cellCenters.headD 0| cellCenters).1

/-- A solution matrix together with its (dynamic) row count, embedding the
resizable `Eigen::Matrix<double, Eigen::Dynamic, 2>` member `_Sol`. -/
def MatD := (n : ℕ) × Mat n

instance : DecidableEq MatD := by unfold MatD; infer_instance

/-- `Eigen` `resize(rows, 2)`: a no-op when the dimensions are unchanged,
otherwise the coefficients are left uninitialized — the unspecified memory
contents are supplied by the `junk` parameter. -/
def matResize (M : MatD) (rows : ℕ) (junk : (m : ℕ) → Mat m) : MatD :=
  if M.1 = rows then M else ⟨rows, junk rows⟩

/-- `std::vector::resize(m, fill)`: truncate or extend with `fill`. -/
def listResize (l : List ℕ) (m : ℕ) (fill : ℕ) : List ℕ :=
  l.take m ++ List.replicate (m - l.length) fill

/-- The configuration collaborator `DataFile` (getters used by the core). -/
structure DataFile where
  timeStep : ℚ
  initialTime : ℚ
  finalTime : ℚ
  saveFrequency : ℕ
  nProbes : ℕ
  probesRef : List ℕ
  probesPos : List ℚ
  dx : ℚ
  gravityAcceleration : ℚ
  saveFinalTimeOnly : Bool
  testCase : Bool

/-- The geometry collaborator `Mesh` (getters used by the core). -/
structure Mesh where
  numberOfCells : ℕ
  cellCenters : List ℚ
  spaceStep : ℚ

/-- The physics collaborator (the member used by `Initialize`). -/
structure Physics where
  initialCondition : MatD

/-- The flux collaborator (the member used to namespace output files). -/
structure FiniteVolume where
  fluxName : String

/-- The data members of the `TimeScheme` object that `Initialize` writes
(collaborator pointers are not modelled as members; each embedded method
takes the collaborators as arguments). -/
structure TimeSchemeState where
  Sol : MatD
  timeStep : ℚ
  initialTime : ℚ
  finalTime : ℚ
  currentTime : ℚ
  nProbes : ℕ
  probesRef : List ℕ
  probesPos : List ℚ
  probesIndices : List ℕ

/-- `TimeScheme::Initialize` (TimeScheme.cpp lines 34-49): stores the
collaborators, sets `_Sol` to the physics initial condition, copies the
time parameters, resets the clock to the initial time, and copies the
probe configuration. -/
def TimeScheme.Initialize (DF : DataFile) (mesh : Mesh) (physics : Physics)
    (finVol : FiniteVolume) (ts : TimeSchemeState) : TimeSchemeState :=
  { ts with
    Sol := physics.initialCondition
    timeStep := DF.timeStep
    initialTime := DF.initialTime
    finalTime := DF.finalTime
    currentTime := DF.initialTime
    nProbes := DF.nProbes
    probesRef := DF.probesRef
    probesPos := DF.probesPos
    probesIndices := listResize ts.probesIndices DF.nProbes 0 }

/-- `ExplicitEuler::Initialize` (TimeScheme.cpp lines 236-247): stores the
collaborators, resizes `_Sol` to `mesh->getNumberOfCells()` rows (without
assigning the initial condition), copies the time parameters and resets
the clock to the initial time. -/
def ExplicitEuler.Initialize (junk : (m : ℕ) → Mat m) (DF : DataFile)
    (mesh : Mesh) (physics : Physics) (finVol : FiniteVolume)
    (ts : TimeSchemeState) : TimeSchemeState :=
  { ts with
    Sol := matResize ts.Sol mesh.numberOfCells junk
    timeStep := DF.timeStep
    initialTime := DF.initialTime
    finalTime := DF.finalTime
    currentTime := DF.initialTime }

/-- `RK2::Initialize` (TimeScheme.cpp lines 286-297): identical to
`ExplicitEuler::Initialize` — resizes `_Sol` without assigning the initial
condition, copies the time parameters and resets the clock. -/
def RK2.Initialize (junk : (m : ℕ) → Mat m) (DF : DataFile)
    (mesh : Mesh) (physics : Physics) (finVol : FiniteVolume)
    (ts : TimeSchemeState) : TimeSchemeState :=
  { ts with
    Sol := matResize ts.Sol mesh.numberOfCells junk
    timeStep := DF.timeStep
    initialTime := DF.initialTime
    finalTime := DF.finalTime
    currentTime := DF.initialTime }

/-! ## Helper lemmas -/

/-- A step function that fixes every state keeps the state fixed under
iteration. -/
theorem iterScheme_fixed {n : ℕ} (stepF : ℚ → Mat n → Mat n) (dt : ℚ)
    (h : ∀ t s, stepF t s = s) :
    ∀ (k : ℕ) (t : ℚ) (s : Mat n), iterScheme stepF dt k t s = s := by
  intro k
  induction k with
  | zero => intro t s; rfl
  | succ k ih => intro t s; rw [iterScheme, h, ih]

/-- A step function that adds a fixed increment `a` accumulates `k * a`
over `k` iterations. -/
theorem iterScheme_const_inc {n : ℕ} (stepF : ℚ → Mat n → Mat n) (dt : ℚ)
    (a : Mat n) (h : ∀ t s, stepF t s = fun i j => s i j + a i j) :
    ∀ (k : ℕ) (t : ℚ) (s : Mat n),
      iterScheme stepF dt k t s = fun i j => s i j + k * a i j := by
  intro k
  induction k with
  | zero => intro t s; funext i j; simp [iterScheme]
  | succ k ih =>
    intro t s
    rw [iterScheme, h, ih]
    funext i j
    push_cast
    ring

/-! ## Claim theorems -/

/-- C2: one Explicit Euler step replaces the state `s` at time `t` by
`s + dt * (flux(t, s)/dx + source(s))`, and its invocation trace contains
exactly one flux-provider call and exactly one source-provider call. -/
theorem euler_one_step_formula_and_single_eval {n : ℕ} (dt dx t : ℚ)
    (flux : ℚ → Mat n → Mat n) (source : Mat n → Mat n) (s : Mat n) :
    (eulerOneStep dt dx flux source t s).1
      = (fun i j => s i j + dt * (flux t s i j / dx + source s i j))
    ∧ (eulerOneStep dt dx flux source t s).2.countP (fun e => e.isFlux) = 1
    ∧ (eulerOneStep dt dx flux source t s).2.countP (fun e => e.isSource) = 1 := by
  refine ⟨rfl, ?_, ?_⟩ <;>
    simp [eulerOneStep, ProviderCall.isFlux, ProviderCall.isSource]

/-- C3: one RK2 step computes `k1 = flux(t, s)/dx + source(s)`, forms the
trial state `s + dt*k1`, computes `k2 = flux(t+dt, trial)/dx +
source(trial)`, and replaces the state by `s + 0.5*dt*(k1 + k2)`; the
invocation trace shows the stage-2 source evaluation happening before the
stage-2 flux evaluation, both at the identical trial state. -/
theorem rk2_one_step_stages_and_eval_order {n : ℕ} (dt dx t : ℚ)
    (flux : ℚ → Mat n → Mat n) (source : Mat n → Mat n) (s : Mat n) :
    (rk2OneStep dt dx flux source t s).1
      = (fun i j => s i j + 0.5 * dt *
          ((flux t s i j / dx + source s i j) +
           (flux (t + dt) (fun a b => s a b + dt * (flux t s a b / dx + source s a b)) i j / dx
            + source (fun a b => s a b + dt * (flux t s a b / dx + source s a b)) i j)))
    ∧ (rk2OneStep dt dx flux source t s).2
      = [ProviderCall.fluxCall t s, ProviderCall.sourceCall s,
         ProviderCall.sourceCall
           (fun a b => s a b + dt * (flux t s a b / dx + source s a b)),
         ProviderCall.fluxCall (t + dt)
           (fun a b => s a b + dt * (flux t s a b / dx + source s a b))] :=
  ⟨rfl, rfl⟩

/-- C4: with a flux provider returning zero for every (time, state) and a
source provider returning zero for every state, both Explicit Euler and
RK2 leave the state exactly unchanged after any number `k` of steps. -/
theorem zero_flux_zero_source_fixed_point {n : ℕ} (dt dx t : ℚ) (k : ℕ)
    (s : Mat n) :
    iterScheme (fun u v =>
        (eulerOneStep dt dx (fun _ _ => fun _ _ => 0) (fun _ => fun _ _ => 0) u v).1)
      dt k t s = s
    ∧ iterScheme (fun u v =>
        (rk2OneStep dt dx (fun _ _ => fun _ _ => 0) (fun _ => fun _ _ => 0) u v).1)
      dt k t s = s := by
  constructor <;>
    refine iterScheme_fixed _ dt (fun u v => ?_) k t s <;>
    funext i j <;>
    simp [eulerOneStep, rk2OneStep]

/-- C5 (amended): with a flux provider returning the constant array `c` and
a zero source provider, after `k` steps both Explicit Euler and RK2 yield
`s + k * dt * (c / dx)` — the constant flux enters the update divided by
the mesh spacing `dx`. -/
theorem const_flux_linear_growth {n : ℕ} (dt dx t : ℚ) (c : Mat n) (k : ℕ)
    (s : Mat n) :
    iterScheme (fun u v =>
        (eulerOneStep dt dx (fun _ _ => c) (fun _ => fun _ _ => 0) u v).1)
      dt k t s = (fun i j => s i j + k * dt * (c i j / dx))
    ∧ iterScheme (fun u v =>
        (rk2OneStep dt dx (fun _ _ => c) (fun _ => fun _ _ => 0) u v).1)
      dt k t s = (fun i j => s i j + k * dt * (c i j / dx)) := by
  have key : ∀ stepF : ℚ → Mat n → Mat n,
      (∀ u v, stepF u v = fun i j => v i j + dt * (c i j / dx)) →
      iterScheme stepF dt k t s = fun i j => s i j + k * dt * (c i j / dx) := by
    intro stepF h
    rw [iterScheme_const_inc stepF dt (fun i j => dt * (c i j / dx)) h k t s]
    funext i j
    ring
  constructor <;> refine key _ (fun u v => ?_) <;> funext i j <;>
    simp [eulerOneStep, rk2OneStep] <;> ring

/-- C5 (counterexample): the claim `State_k = State_0 + k*dt*c` as stated
fails when the mesh spacing is not 1: with one cell, `dt = 1`, `dx = 2`,
constant flux `c = 1`, zero source and initial state `0`, one Explicit
Euler step produces the state `1/2`, not `1*1*1 = 1` as the claim
predicts. -/
theorem const_flux_claim_fails_without_dx :
    iterScheme (n := 1)
        (fun u v =>
          (eulerOneStep 1 2 (fun _ _ => fun _ _ => 1) (fun _ => fun _ _ => 0) u v).1)
        1 1 0 (fun _ _ => 0) = (fun _ _ => 1 / 2)
    ∧ ¬ (iterScheme (n := 1)
        (fun u v =>
          (eulerOneStep 1 2 (fun _ _ => fun _ _ => 1) (fun _ => fun _ _ => 0) u v).1)
        1 1 0 (fun _ _ => 0) = fun _ _ => 1 * 1 * 1) := by
  constructor
  · funext i j
    norm_num [iterScheme, eulerOneStep]
  · intro h
    have h0 := congrFun (congrFun h 0) 0
    norm_num [iterScheme, eulerOneStep] at h0

/-- C10: the probe-sampling test in the time loop takes the iteration
counter modulo `saveFrequency / 10` (integer quotient); that divisor is
nonzero exactly when the configured save frequency is at least 10 — for
every save frequency below 10 the divisor is zero. -/
theorem probe_divisor_nonzero_iff (saveFrequency : ℕ) :
    probeDivisor saveFrequency ≠ 0 ↔ 10 ≤ saveFrequency := by
  unfold probeDivisor
  omega

/-- Unrolling the time loop: if the loop condition holds for exactly `K`
iterations starting from clock `t`, then with fuel at least `K` the loop
returns the clock advanced by `K` steps, the `K`-fold iterated state, the
counter increased by `K`, and the probe log extended by the firing
iterations. -/
theorem timeLoop_run {n : ℕ} (stepF : ℚ → Mat n → Mat n) (dt Tf : ℚ)
    (sf np : ℕ) :
    ∀ (K : ℕ) (t : ℚ), (∀ j : ℕ, j < K → t + j * dt < Tf) →
      Tf ≤ t + K * dt →
      ∀ fuel : ℕ, K ≤ fuel → ∀ (s : Mat n) (m : ℕ) (log : List ℕ),
        timeLoop stepF dt Tf sf np fuel t s m log =
          some (t + K * dt, iterScheme stepF dt K t s, m + K,
                log ++ probeRecordIters np sf m K) := by
  intro K
  induction K with
  | zero =>
    intro t hlt hge fuel hfuel s m log
    have hnot : ¬ t < Tf := not_lt.mpr (by simpa using hge)
    cases fuel <;>
      simp [timeLoop, hnot, iterScheme, probeRecordIters]
  | succ K ih =>
    intro t hlt hge fuel hfuel s m log
    have ht : t < Tf := by simpa using hlt 0 (Nat.succ_pos K)
    obtain ⟨fuel', rfl⟩ : ∃ f, fuel = f + 1 := ⟨fuel - 1, by omega⟩
    rw [timeLoop, if_pos ht]
    rw [ih (t + dt)
      (fun j hj => by
        have := hlt (j + 1) (by omega)
        push_cast at this ⊢
        linarith)
      (by push_cast at hge ⊢; linarith)
      fuel' (by omega) (stepF t s) (m + 1) _]
    simp only [Option.some.injEq, Prod.mk.injEq]
    refine ⟨by push_cast; ring, rfl, by omega, ?_⟩
    by_cases hc : np ≠ 0 ∧ (m + 1) % probeDivisor sf = 0 <;>
      simp [probeRecordIters, hc]

/-- Membership in the list of probe-firing iteration counters. -/
theorem probeRecordIters_mem (np sf : ℕ) :
    ∀ (K m x : ℕ), x ∈ probeRecordIters np sf m K ↔
      (np ≠ 0 ∧ m < x ∧ x ≤ m + K ∧ x % probeDivisor sf = 0) := by
  intro K
  induction K with
  | zero => intro m x; simp [probeRecordIters]; omega
  | succ K ih =>
    intro m x
    rw [probeRecordIters]
    by_cases hc : np ≠ 0 ∧ (m + 1) % probeDivisor sf = 0
    · simp only [if_pos hc, List.singleton_append, List.mem_cons, ih (m + 1)]
      constructor
      · rintro (rfl | ⟨hnp, h1, h2, h3⟩)
        · exact ⟨hc.1, by omega, by omega, hc.2⟩
        · exact ⟨hnp, by omega, by omega, h3⟩
      · rintro ⟨hnp, h1, h2, h3⟩
        by_cases hx : x = m + 1
        · exact Or.inl hx
        · exact Or.inr ⟨hnp, by omega, by omega, h3⟩
    · simp only [if_neg hc, List.nil_append, ih (m + 1)]
      constructor
      · rintro ⟨hnp, h1, h2, h3⟩
        exact ⟨hnp, by omega, by omega, h3⟩
      · rintro ⟨hnp, h1, h2, h3⟩
        refine ⟨hnp, ?_, by omega, h3⟩
        rcases Nat.lt_or_ge (m + 1) x with h | h
        · exact h
        · have hx : x = m + 1 := by omega
          exact absurd ⟨hnp, hx ▸ h3⟩ hc

/-- C6: the loop condition `_currentTime < _finalTime` is checked before
each step, so for a positive time step and `finalTime ≥ initialTime` the
loop performs exactly the least number `K` of iterations with
`initialTime + K*timeStep ≥ finalTime` (possibly stepping at or past the
final time and then stopping), and the exit clock `initialTime + K*dt`
is at least the final time. -/
theorem time_loop_least_iteration_count {n : ℕ} (stepF : ℚ → Mat n → Mat n)
    (dt T0 Tf : ℚ) (sf np : ℕ) (s : Mat n)
    (hdt : 0 < dt) (hT : T0 ≤ Tf) :
    ∃ K : ℕ,
      (∀ j : ℕ, j < K → T0 + j * dt < Tf) ∧
      Tf ≤ T0 + K * dt ∧
      ∀ fuel : ℕ, K ≤ fuel →
        timeLoop stepF dt Tf sf np fuel T0 s 0 [] =
          some (T0 + K * dt, iterScheme stepF dt K T0 s, K,
                probeRecordIters np sf 0 K) := by
  have hex : ∃ k : ℕ, Tf ≤ T0 + k * dt := by
    obtain ⟨k, hk⟩ := exists_nat_ge ((Tf - T0) / dt)
    refine ⟨k, ?_⟩
    rw [div_le_iff₀ hdt] at hk
    linarith
  refine ⟨Nat.find hex, fun j hj => not_le.mp (Nat.find_min hex hj), Nat.find_spec hex,
    fun fuel hfuel => ?_⟩
  simpa using timeLoop_run stepF dt Tf sf np (Nat.find hex) T0
    (fun j hj => not_le.mp (Nat.find_min hex hj)) (Nat.find_spec hex)
    fuel hfuel s 0 []

/-- Witness for C6: time step 1, initial time 0, final time 2, a
zero-provider Explicit Euler step on one cell. -/
theorem time_loop_least_iteration_count_witness :
    ∃ K : ℕ,
      (∀ j : ℕ, j < K → (0 : ℚ) + j * 1 < 2) ∧
      (2 : ℚ) ≤ 0 + K * 1 ∧
      ∀ fuel : ℕ, K ≤ fuel →
        timeLoop (n := 1)
          (fun u v =>
            (eulerOneStep 1 1 (fun _ _ => fun _ _ => 0) (fun _ => fun _ _ => 0) u v).1)
          1 2 10 0 fuel 0 (fun _ _ => 0) 0 [] =
          some ((0 : ℚ) + K * 1,
            iterScheme
              (fun u v =>
                (eulerOneStep 1 1 (fun _ _ => fun _ _ => 0) (fun _ => fun _ _ => 0) u v).1)
              1 K 0 (fun _ _ => 0), K,
            probeRecordIters 0 10 0 K) :=
  time_loop_least_iteration_count _ 1 0 2 10 0 _ (by norm_num) (by norm_num)

/-- C7 (amended): when at least one probe is configured and the save
frequency is at least 10 (so the integer quotient `saveFrequency/10` is a
nonzero divisor), `saveProbes()` — one appended record per probe — runs
exactly at those iterations whose counter is a positive multiple of the
integer quotient `saveFrequency / 10` (not of the exact fraction
`saveFrequency` over ten). -/
theorem probe_records_at_quotient_multiples {n : ℕ} (stepF : ℚ → Mat n → Mat n)
    (dt T0 Tf : ℚ) (sf np K fuel : ℕ) (s : Mat n)
    (hnp : np ≠ 0) (hsf : 10 ≤ sf)
    (hlt : ∀ j : ℕ, j < K → T0 + j * dt < Tf) (hge : Tf ≤ T0 + K * dt)
    (hfuel : K ≤ fuel) :
    timeLoop stepF dt Tf sf np fuel T0 s 0 [] =
      some (T0 + K * dt, iterScheme stepF dt K T0 s, K,
            probeRecordIters np sf 0 K)
    ∧ ∀ x : ℕ, x ∈ probeRecordIters np sf 0 K ↔
        (1 ≤ x ∧ x ≤ K ∧ probeDivisor sf ∣ x) := by
  constructor
  · simpa using timeLoop_run stepF dt Tf sf np K T0 hlt hge fuel hfuel s 0 []
  · intro x
    rw [probeRecordIters_mem np sf K 0 x]
    constructor
    · rintro ⟨_, h1, h2, h3⟩
      exact ⟨by omega, by omega, Nat.dvd_iff_mod_eq_zero.mpr h3⟩
    · rintro ⟨h1, h2, h3⟩
      exact ⟨hnp, by omega, by omega, Nat.dvd_iff_mod_eq_zero.mp h3⟩

/-- Witness for C7 (amended): one probe, save frequency 20 (divisor 2),
time step 1 from time 0 to 2, hence 2 iterations. -/
theorem probe_records_at_quotient_multiples_witness :
    timeLoop (n := 1)
        (fun u v =>
          (eulerOneStep 1 1 (fun _ _ => fun _ _ => 0) (fun _ => fun _ _ => 0) u v).1)
        1 2 20 1 2 0 (fun _ _ => 0) 0 [] =
      some ((0 : ℚ) + 2 * 1,
        iterScheme
          (fun u v =>
            (eulerOneStep 1 1 (fun _ _ => fun _ _ => 0) (fun _ => fun _ _ => 0) u v).1)
          1 2 0 (fun _ _ => 0), 2,
        probeRecordIters 1 20 0 2)
    ∧ ∀ x : ℕ, x ∈ probeRecordIters 1 20 0 2 ↔
        (1 ≤ x ∧ x ≤ 2 ∧ probeDivisor 20 ∣ x) :=
  probe_records_at_quotient_multiples _ 1 0 2 20 1 2 2 _
    (by norm_num) (by norm_num)
    (fun j hj => by interval_cases j <;> norm_num)
    (by norm_num) (by norm_num)

/-- C7 (counterexample): with save frequency 15 the claim fails — running
two iterations (time step 1 from 0 to 2) with one probe, the loop appends
probe records at iterations 1 and 2 (since `15/10 = 1` by integer
division), yet iteration 1 is not a multiple of one-tenth of the save
frequency (`15/10 = 3/2` exactly). -/
theorem probe_cadence_integer_division_counterexample :
    (timeLoop (n := 1)
        (fun u v =>
          (eulerOneStep 1 1 (fun _ _ => fun _ _ => 0) (fun _ => fun _ _ => 0) u v).1)
        1 2 15 1 2 0 (fun _ _ => 0) 0 []).map (fun r => r.2.2.2) = some [1, 2]
    ∧ ¬ ∃ m : ℕ, (1 : ℚ) = m * ((15 : ℚ) / 10) := by
  constructor
  · norm_num [timeLoop, eulerOneStep, probeDivisor]
  · rintro ⟨m, hm⟩
    rcases Nat.eq_zero_or_pos m with h0 | h1
    · subst h0; norm_num at hm
    · have hm1 : (1 : ℚ) ≤ m := by exact_mod_cast h1
      nlinarith [hm, hm1]

/-- C8: when the state equals the exact solution component-wise both error
norms return zero for both components; when the state equals the exact
solution plus a constant offset `c` on every cell of component `j`, the L1
error for that component is `n * |c| * dx` and the L2 error is
`sqrt n * |c| * dx`, with `dx` the configured mesh spacing. -/
theorem error_norms_zero_and_offset {n : ℕ} (sol exact : Mat n) (dx c : ℚ)
    (j : Fin 2) :
    (sol = exact →
      (∀ j' : Fin 2, computeL1Error sol exact dx j' = 0)
      ∧ (∀ j' : Fin 2, computeL2Error sol exact dx j' = 0))
    ∧ ((∀ i : Fin n, sol i j = exact i j + c) →
      computeL1Error sol exact dx j = n * |c| * dx
      ∧ computeL2Error sol exact dx j = Real.sqrt n * (|c| : ℝ) * (dx : ℝ)) := by
  constructor
  · rintro rfl
    exact ⟨fun j' => by simp [computeL1Error],
           fun j' => by simp [computeL2Error]⟩
  · intro hoff
    constructor
    · unfold computeL1Error
      rw [Finset.sum_congr rfl
        (fun i _ => by rw [hoff i, add_sub_cancel_left] :
          ∀ i ∈ Finset.univ, |sol i j - exact i j| = |c|)]
      rw [Finset.sum_const, Finset.card_univ, Fintype.card_fin, nsmul_eq_mul]
    · unfold computeL2Error
      rw [Finset.sum_congr rfl
        (fun i _ => by rw [hoff i]; push_cast; ring :
          ∀ i ∈ Finset.univ, ((sol i j : ℝ) - (exact i j : ℝ)) ^ 2 = (c : ℝ) ^ 2)]
      rw [Finset.sum_const, Finset.card_univ, Fintype.card_fin, nsmul_eq_mul,
        Real.sqrt_mul (by positivity), Real.sqrt_sq_eq_abs]

/-- Witness for C8: two cells; the identical case with the constant state 1
and spacing 1/2, and the offset case with exact solution 0, offset 3 on
component 0 and spacing 1/2. -/
theorem error_norms_zero_and_offset_witness :
    ((∀ j' : Fin 2, computeL1Error (n := 2) (fun _ _ => 1) (fun _ _ => 1) (1 / 2) j' = 0)
     ∧ (∀ j' : Fin 2, computeL2Error (n := 2) (fun _ _ => 1) (fun _ _ => 1) (1 / 2) j' = 0))
    ∧ (computeL1Error (n := 2) (fun _ j' => if j' = 0 then 3 else 0) (fun _ _ => 0) (1 / 2) 0
         = (2 : ℕ) * |(3 : ℚ)| * (1 / 2)
       ∧ computeL2Error (n := 2) (fun _ j' => if j' = 0 then 3 else 0) (fun _ _ => 0) (1 / 2) 0
         = Real.sqrt (2 : ℕ) * (|(3 : ℚ)| : ℝ) * (((1 : ℚ) / 2 : ℚ) : ℝ)) :=
  ⟨(error_norms_zero_and_offset (n := 2) (fun _ _ => 1) (fun _ _ => 1) (1 / 2) 3 0).1 rfl,
   (error_norms_zero_and_offset (n := 2) (fun _ j' => if j' = 0 then 3 else 0)
      (fun _ _ => 0) (1 / 2) 3 0).2 (fun i => by norm_num)⟩

/-- The scan result distance is bounded by the running minimum and by the
distance to every remaining cell center. -/
theorem probeScan_le (pos : ℚ) :
    ∀ (rest : List ℚ) (k index : ℕ) (dMin : ℚ),
      (probeScan pos k index dMin rest).2 ≤ dMin
      ∧ ∀ j : ℕ, j < rest.length →
          (probeScan pos k index dMin rest).2 ≤ |pos - rest.getD j 0| := by
  intro rest
  induction rest with
  | nil =>
    intro k index dMin
    exact ⟨le_refl _, fun j hj => absurd hj (by simp)⟩
  | cons x rest ih =>
    intro k index dMin
    rw [probeScan]
    by_cases hx : |pos - x| < dMin
    · rw [if_pos hx]
      obtain ⟨h1, h2⟩ := ih (k + 1) k |pos - x|
      refine ⟨h1.trans hx.le, fun j hj => ?_⟩
      cases j with
      | zero => simpa using h1
      | succ j => simpa using h2 j (by simpa using hj)
    · rw [if_neg hx]
      obtain ⟨h1, h2⟩ := ih (k + 1) index dMin
      refine ⟨h1, fun j hj => ?_⟩
      cases j with
      | zero => simpa using h1.trans (not_lt.mp hx)
      | succ j => simpa using h2 j (by simpa using hj)

/-- The scan either keeps the incoming `(index, dMin)` pair, or picks the
first remaining cell center whose distance beats `dMin` and every earlier
remaining center strictly. -/
theorem probeScan_choice (pos : ℚ) :
    ∀ (rest : List ℚ) (k index : ℕ) (dMin : ℚ),
      ((probeScan pos k index dMin rest).1 = index
        ∧ (probeScan pos k index dMin rest).2 = dMin)
      ∨ (∃ j : ℕ, j < rest.length
          ∧ (probeScan pos k index dMin rest).1 = k + j
          ∧ (probeScan pos k index dMin rest).2 = |pos - rest.getD j 0|
          ∧ (probeScan pos k index dMin rest).2 < dMin
          ∧ ∀ j' : ℕ, j' < j →
              (probeScan pos k index dMin rest).2 < |pos - rest.getD j' 0|) := by
  intro rest
  induction rest with
  | nil =>
    intro k index dMin
    exact Or.inl ⟨rfl, rfl⟩
  | cons x rest ih =>
    intro k index dMin
    rw [probeScan]
    by_cases hx : |pos - x| < dMin
    · rw [if_pos hx]
      rcases ih (k + 1) k |pos - x| with ⟨h1, h2⟩ | ⟨j, hj, h1, h2, h3, h4⟩
      · refine Or.inr ⟨0, by simp, by simpa using h1, by simpa using h2, ?_, ?_⟩
        · rw [h2]; exact hx
        · intro j' hj'; omega
      · refine Or.inr ⟨j + 1, by simpa using hj, by rw [h1]; ring, by simpa using h2,
          h3.trans hx, ?_⟩
        intro j' hj'
        cases j' with
        | zero => simpa using h3
        | succ j' => simpa using h4 j' (by omega)
    · rw [if_neg hx]
      rcases ih (k + 1) index dMin with ⟨h1, h2⟩ | ⟨j, hj, h1, h2, h3, h4⟩
      · exact Or.inl ⟨h1, h2⟩
      · refine Or.inr ⟨j + 1, by simpa using hj, by rw [h1]; ring, by simpa using h2,
          h3, ?_⟩
        intro j' hj'
        cases j' with
        | zero => simpa using h3.trans_le (not_lt.mp hx)
        | succ j' => simpa using h4 j' (by omega)

/-- C9: for a non-empty list of cell centers, probe-index resolution
returns an in-range index whose cell center is at minimum absolute
distance from the probe position, ties going to the lower index; in
particular for centers `[0,1,2,3,4]` position `2.4` resolves to index 2
and position `2.5` (exactly between two centers) also resolves to 2. -/
theorem probe_index_min_distance_tiebreak (cellCenters : List ℚ) (pos : ℚ)
    (hne : cellCenters ≠ []) :
    probeCellIndex cellCenters pos < cellCenters.length
    ∧ (∀ k : ℕ, k < cellCenters.length →
        |pos - cellCenters.getD (probeCellIndex cellCenters pos) 0|
          ≤ |pos - cellCenters.getD k 0|)
    ∧ (∀ k : ℕ, k < cellCenters.length →
        |pos - cellCenters.getD k 0|
          = |pos - cellCenters.getD (probeCellIndex cellCenters pos) 0|
        → probeCellIndex cellCenters pos ≤ k)
    ∧ probeCellIndex [0, 1, 2, 3, 4] (24 / 10) = 2
    ∧ probeCellIndex [0, 1, 2, 3, 4] (25 / 10) = 2 := by
  obtain ⟨y, ys, rfl⟩ := List.exists_cons_of_ne_nil hne
  have hd2 : |pos - (y :: ys).getD (probeCellIndex (y :: ys) pos) 0|
      = (probeScan pos 0 0 |pos - y| (y :: ys)).2
    ∧ probeCellIndex (y :: ys) pos < (y :: ys).length := by
    rcases probeScan_choice pos (y :: ys) 0 0 |pos - y| with ⟨h1, h2⟩ | ⟨j, hj, h1, h2, h3, h4⟩
    · constructor
      · show |pos - (y :: ys).getD (probeScan pos 0 0 |pos - y| (y :: ys)).1 0| = _
        rw [h1, h2]
        simp
      · show (probeScan pos 0 0 |pos - y| (y :: ys)).1 < (y :: ys).length
        rw [h1]
        simp
    · constructor
      · show |pos - (y :: ys).getD (probeScan pos 0 0 |pos - y| (y :: ys)).1 0| = _
        rw [h1, Nat.zero_add, h2]
      · show (probeScan pos 0 0 |pos - y| (y :: ys)).1 < (y :: ys).length
        rw [h1]
        omega
  refine ⟨hd2.2, ?_, ?_, ?_, ?_⟩
  · intro k hk
    rw [hd2.1]
    exact (probeScan_le pos (y :: ys) 0 0 |pos - y|).2 k hk
  · intro k hk heq
    rcases probeScan_choice pos (y :: ys) 0 0 |pos - y| with ⟨h1, _⟩ | ⟨j, hj, h1, _, _, h4⟩
    · show (probeScan pos 0 0 |pos - y| (y :: ys)).1 ≤ k
      rw [h1]
      omega
    · show (probeScan pos 0 0 |pos - y| (y :: ys)).1 ≤ k
      rw [h1, Nat.zero_add]
      by_contra hcon
      have hkj : k < j := by omega
      have := h4 k hkj
      rw [heq, hd2.1] at this
      exact lt_irrefl _ this
  · norm_num [probeCellIndex, probeScan, abs_of_nonneg, abs_of_nonpos]
  · norm_num [probeCellIndex, probeScan, abs_of_nonneg, abs_of_nonpos]

/-- Witness for C9: the resolution theorem applied to the concrete centers
`[0, 1]` and probe position `3/4` (closest center: index 1). -/
theorem probe_index_min_distance_tiebreak_witness :
    probeCellIndex [0, 1] (3 / 4) < ([0, 1] : List ℚ).length
    ∧ (∀ k : ℕ, k < ([0, 1] : List ℚ).length →
        |3 / 4 - ([0, 1] : List ℚ).getD (probeCellIndex [0, 1] (3 / 4)) 0|
          ≤ |3 / 4 - ([0, 1] : List ℚ).getD k 0|)
    ∧ (∀ k : ℕ, k < ([0, 1] : List ℚ).length →
        |3 / 4 - ([0, 1] : List ℚ).getD k 0|
          = |3 / 4 - ([0, 1] : List ℚ).getD (probeCellIndex [0, 1] (3 / 4)) 0|
        → probeCellIndex [0, 1] (3 / 4) ≤ k)
    ∧ probeCellIndex [0, 1, 2, 3, 4] (24 / 10) = 2
    ∧ probeCellIndex [0, 1, 2, 3, 4] (25 / 10) = 2 :=
  probe_index_min_distance_tiebreak [0, 1] (3 / 4) (by simp)

/-- C1 (counterexample): `ExplicitEuler::Initialize` does not set the
working state to the physics initial condition.  With a one-cell mesh, a
physics collaborator whose initial condition is the constant matrix 1, and
a prior `_Sol` of matching size holding the constant matrix 5, the state
after `Initialize` still holds 5 (the resize is a no-op), not the initial
condition. -/
theorem euler_initialize_ignores_initial_condition :
    (ExplicitEuler.Initialize (fun _ => fun _ _ => 0)
        { timeStep := 1, initialTime := 0, finalTime := 1, saveFrequency := 10,
          nProbes := 0, probesRef := [], probesPos := [], dx := 1,
          gravityAcceleration := 981 / 100, saveFinalTimeOnly := false,
          testCase := false }
        { numberOfCells := 1, cellCenters := [1 / 2], spaceStep := 1 }
        { initialCondition := ⟨1, fun _ _ => 1⟩ }
        { fluxName := "Rusanov" }
        { Sol := ⟨1, fun _ _ => 5⟩, timeStep := 0, initialTime := 0,
          finalTime := 0, currentTime := 0, nProbes := 0, probesRef := [],
          probesPos := [], probesIndices := [] }).Sol
      ≠ ({ initialCondition := ⟨1, fun _ _ => 1⟩ } : Physics).initialCondition := by
  intro h
  have h5 : (⟨1, fun _ _ => 5⟩ : MatD) = ⟨1, fun _ _ => 1⟩ := h
  injection h5 with hn hf
  have h1 := congrFun (congrFun hf 0) 0
  norm_num at h1

/-- C1 (amended): all three `Initialize` methods reset the simulation clock
to the configured initial time, and the base `TimeScheme::Initialize` sets
the working state to the physics initial condition; but the
`ExplicitEuler::Initialize` and `RK2::Initialize` overrides only resize
the state to the mesh's cell count without assigning the initial
condition — in particular, when the prior state already has the mesh's
row count, they leave it untouched. -/
theorem initialize_sets_clock_and_resizes (junk : (m : ℕ) → Mat m)
    (DF : DataFile) (mesh : Mesh) (physics : Physics) (finVol : FiniteVolume)
    (ts : TimeSchemeState) :
    (TimeScheme.Initialize DF mesh physics finVol ts).Sol = physics.initialCondition
    ∧ (TimeScheme.Initialize DF mesh physics finVol ts).currentTime = DF.initialTime
    ∧ (ExplicitEuler.Initialize junk DF mesh physics finVol ts).currentTime = DF.initialTime
    ∧ (RK2.Initialize junk DF mesh physics finVol ts).currentTime = DF.initialTime
    ∧ (ExplicitEuler.Initialize junk DF mesh physics finVol ts).Sol
        = matResize ts.Sol mesh.numberOfCells junk
    ∧ (RK2.Initialize junk DF mesh physics finVol ts).Sol
        = matResize ts.Sol mesh.numberOfCells junk
    ∧ (ts.Sol.1 = mesh.numberOfCells →
        (ExplicitEuler.Initialize junk DF mesh physics finVol ts).Sol = ts.Sol
        ∧ (RK2.Initialize junk DF mesh physics finVol ts).Sol = ts.Sol) := by
  refine ⟨rfl, rfl, rfl, rfl, rfl, rfl, fun h => ⟨?_, ?_⟩⟩ <;>
    simp [ExplicitEuler.Initialize, RK2.Initialize, matResize, h]

/-- Witness for C1 (amended): the concrete configuration of the
counterexample, whose prior state has the mesh's row count. -/
theorem initialize_sets_clock_and_resizes_witness :
    (TimeScheme.Initialize
        { timeStep := 1, initialTime := 0, finalTime := 1, saveFrequency := 10,
          nProbes := 0, probesRef := [], probesPos := [], dx := 1,
          gravityAcceleration := 981 / 100, saveFinalTimeOnly := false,
          testCase := false }
        { numberOfCells := 1, cellCenters := [1 / 2], spaceStep := 1 }
        { initialCondition := ⟨1, fun _ _ => 1⟩ }
        { fluxName := "Rusanov" }
        { Sol := ⟨1, fun _ _ => 5⟩, timeStep := 0, initialTime := 0,
          finalTime := 0, currentTime := 0, nProbes := 0, probesRef := [],
          probesPos := [], probesIndices := [] }).Sol
      = ({ initialCondition := ⟨1, fun _ _ => 1⟩ } : Physics).initialCondition
    ∧ (ExplicitEuler.Initialize (fun _ => fun _ _ => 0)
        { timeStep := 1, initialTime := 0, finalTime := 1, saveFrequency := 10,
          nProbes := 0, probesRef := [], probesPos := [], dx := 1,
          gravityAcceleration := 981 / 100, saveFinalTimeOnly := false,
          testCase := false }
        { numberOfCells := 1, cellCenters := [1 / 2], spaceStep := 1 }
        { initialCondition := ⟨1, fun _ _ => 1⟩ }
        { fluxName := "Rusanov" }
        { Sol := ⟨1, fun _ _ => 5⟩, timeStep := 0, initialTime := 0,
          finalTime := 0, currentTime := 0, nProbes := 0, probesRef := [],
          probesPos := [], probesIndices := [] }).Sol
      = (⟨1, fun _ _ => 5⟩ : MatD)
    ∧ (RK2.Initialize (fun _ => fun _ _ => 0)
        { timeStep := 1, initialTime := 0, finalTime := 1, saveFrequency := 10,
          nProbes := 0, probesRef := [], probesPos := [], dx := 1,
          gravityAcceleration := 981 / 100, saveFinalTimeOnly := false,
          testCase := false }
        { numberOfCells := 1, cellCenters := [1 / 2], spaceStep := 1 }
        { initialCondition := ⟨1, fun _ _ => 1⟩ }
        { fluxName := "Rusanov" }
        { Sol := ⟨1, fun _ _ => 5⟩, timeStep := 0, initialTime := 0,
          finalTime := 0, currentTime := 0, nProbes := 0, probesRef := [],
          probesPos := [], probesIndices := [] }).Sol
      = (⟨1, fun _ _ => 5⟩ : MatD) := by
  have h := initialize_sets_clock_and_resizes (fun _ => fun _ _ => 0)
    { timeStep := 1, initialTime := 0, finalTime := 1, saveFrequency := 10,
      nProbes := 0, probesRef := [], probesPos := [], dx := 1,
      gravityAcceleration := 981 / 100, saveFinalTimeOnly := false,
      testCase := false }
    { numberOfCells := 1, cellCenters := [1 / 2], spaceStep := 1 }
    { initialCondition := ⟨1, fun _ _ => 1⟩ }
    { fluxName := "Rusanov" }
    { Sol := ⟨1, fun _ _ => 5⟩, timeStep := 0, initialTime := 0,
      finalTime := 0, currentTime := 0, nProbes := 0, probesRef := [],
      probesPos := [], probesIndices := [] }
  obtain ⟨hbase, -, -, -, -, -, himp⟩ := h
  obtain ⟨hee, hrk⟩ := himp rfl
  exact ⟨hbase, hee, hrk⟩
